import Mathlib

/-!
Shallow embedding of the VirtIO console driver (`src/device/console.rs`).

The driver's collaborators (the ring transport `VirtQueue`, the device
transport and the platform memory abstraction `Hal`) live outside the
source file; each call into them is modelled by an explicit per-call
environment record (an oracle for the collaborator's reply), and the
externally observable calls the driver makes are recorded as an event
trace. The console's own mutable fields become the `ConsoleState`
structure, mirroring `VirtIOConsole { cursor, pending_len, receive_token,
queue_buf_rx }`.
-/

namespace VirtioConsole

/-- Size of the receive scratch buffer `queue_buf_rx` (`crate::PAGE_SIZE`). -/
def PAGE_SIZE : Nat := 4096

/-- Descriptor-table depth of each queue (`const QUEUE_SIZE: usize = 2`). -/
def QUEUE_SIZE : Nat := 2

/-- Index of the receive queue (`const QUEUE_RECEIVEQ_PORT_0: u16 = 0`). -/
def QUEUE_RECEIVEQ_PORT_0 : Nat := 0

/-- Index of the transmit queue (`const QUEUE_TRANSMITQ_PORT_0: u16 = 1`). -/
def QUEUE_TRANSMITQ_PORT_0 : Nat := 1

/-- Feature bit `RING_INDIRECT_DESC = 1 << 28`. -/
def RING_INDIRECT_DESC : Nat := 2 ^ 28

/-- Feature bit `RING_EVENT_IDX = 1 << 29`. -/
def RING_EVENT_IDX : Nat := 2 ^ 29

/-- Requested feature set, `RING_EVENT_IDX.union(RING_INDIRECT_DESC)`. -/
def SUPPORTED_FEATURES : Nat := Nat.lor RING_EVENT_IDX RING_INDIRECT_DESC

/-- The `bitflags` `contains` test: all bits of `f` are set in `s`. -/
def featuresContains (s f : Nat) : Bool := Nat.land s f == f

/-- Recoverable errors returned by the queue / transport collaborators
(`virtio_drivers::Error` values that can flow through `?`). -/
inductive VirtioError where
  | queueFull
  | wrongToken
  | dmaError
  | configSpaceMissing
  | notifyFailed
  | otherError
deriving DecidableEq, Repr

/-- Outcome of a driver entry point: `Ok`, a propagated `Err`, or an
unrecoverable fault (a Rust `assert!` failure aborting the driver). -/
inductive Outcome (α : Type) where
  | ok : α → Outcome α
  | err : VirtioError → Outcome α
  | fault : Outcome α
deriving DecidableEq, Repr

/-- Which buffer a ring submission hands to the device: the one page-sized
receive scratch buffer `queue_buf_rx`, or the single-byte transmit buffer
`[chr]` built on the stack by `send`. -/
inductive BufSrc where
  | rxScratch : BufSrc
  | txSingle : Nat → BufSrc
deriving DecidableEq, Repr

/-- Externally observable calls the driver makes on its collaborators. -/
inductive Event where
  /-- A `VirtQueue::new(hal, transport, idx, indirect, eventIdx)` call. -/
  | queueNew : Nat → Bool → Bool → Event
  /-- A `Box::new([0; PAGE_SIZE])` call — an allocation from the global
  allocator (`alloc::boxed::Box`). -/
  | boxAlloc : Nat → Event
  /-- An allocation performed through the platform memory abstraction
  (`Hal` DMA allocation). `VirtIOConsole::new` never emits this; the
  constructor is present so that its absence is expressible. -/
  | halDmaAlloc : Nat → Event
  /-- A `transport.finish_init()` call. -/
  | finishInit : Event
  /-- A `VirtQueue::add` call on queue `idx` with the given buffer. -/
  | queueAdd : Nat → BufSrc → Event
  /-- A `transport.notify(idx)` call. -/
  | notify : Nat → Event
  /-- One busy-wait poll of the used ring that saw no completion yet. -/
  | pollUsed : Nat → Event
  /-- The busy-wait observed the submission reported complete. -/
  | observeUsed : Nat → Event
  /-- A `VirtQueue::pop_used` call reclaiming the descriptor on queue `idx`. -/
  | popUsed : Nat → Event
deriving DecidableEq, Repr

/-- The driver state: the mutable fields of `VirtIOConsole`. The queue and
transport objects themselves are external collaborators and are not part
of this state; `queue_buf_rx` holds the current contents of the scratch
page. -/
structure ConsoleState where
  cursor : Nat
  pending_len : Nat
  receive_token : Option Nat
  queue_buf_rx : List Nat
deriving DecidableEq, Repr

/-- A completed receive as reported by the ring: `len` is the byte count
`pop_used` returns, `data` the scratch page contents after the device's
DMA write. -/
structure RecvCompletion where
  len : Nat
  data : List Nat
deriving DecidableEq, Repr

/-- Oracle for one `finish_receive` call: `completion = some c` means
`receiveq.peek_used()` returned the outstanding token (the request is
complete, with result `c`); `popUsedErr` is a failure of
`receiveq.pop_used` if any. -/
structure FinishEnv where
  completion : Option RecvCompletion
  popUsedErr : Option VirtioError
deriving DecidableEq, Repr

/-- Oracle for one `poll_retrieve` call: the result of `receiveq.add`
(a fresh token or an error) and the value of `receiveq.should_notify()`. -/
structure PollEnv where
  addResult : Except VirtioError Nat
  shouldNotify : Bool

/-- Embedding of `VirtIOConsole::finish_receive`. If a token is outstanding and
`peek_used` reports it complete, pop it; `assert_ne!(len, 0)` makes a
zero-length completion an unrecoverable fault; otherwise reset
`cursor = 0`, set `pending_len = len`, record the device-written bytes and
clear the token. Returns `true` iff new data was received. -/
def finish_receive (env : FinishEnv) (s : ConsoleState) :
    Outcome Bool × ConsoleState :=
  match s.receive_token with
  | none => (.ok false, s)
  | some _ =>
    match env.completion with
    | none => (.ok false, s)
    | some c =>
      match env.popUsedErr with
      | some e => (.err e, s)
      | none =>
        if c.len = 0 then
          (.fault, s)
        else
          (.ok true,
            { s with
              queue_buf_rx := c.data
              cursor := 0
              pending_len := c.len
              receive_token := none })

/-- Embedding of `VirtIOConsole::poll_retrieve`. Iff no token is outstanding and
`cursor == pending_len`, submit the whole scratch buffer as one
device-writable buffer to the receive queue, record the returned token,
and notify the device when `should_notify()` says so. -/
def poll_retrieve (env : PollEnv) (s : ConsoleState) :
    Except VirtioError Unit × ConsoleState × List Event :=
  if s.receive_token = none ∧ s.cursor = s.pending_len then
    match env.addResult with
    | .ok tok =>
      (.ok (),
        { s with receive_token := some tok },
        Event.queueAdd QUEUE_RECEIVEQ_PORT_0 BufSrc.rxScratch ::
          (if env.shouldNotify then [Event.notify QUEUE_RECEIVEQ_PORT_0]
           else []))
    | .error e => (.error e, s, [])
  else (.ok (), s, [])

/-- Embedding of `VirtIOConsole::recv`. Runs the completion check, returns
`Ok(None)` when no buffered data remains, otherwise the byte at `cursor`;
with `pop = true` it advances `cursor` and calls `poll_retrieve` to keep
the pipeline primed. (The Rust index `queue_buf_rx[cursor]` is modelled
with `getD _ 0`; under the state invariant the access is in bounds.) -/
def recv (fenv : FinishEnv) (penv : PollEnv) (pop : Bool)
    (s : ConsoleState) : Outcome (Option Nat) × ConsoleState × List Event :=
  match finish_receive fenv s with
  | (.err e, s1) => (.err e, s1, [])
  | (.fault, s1) => (.fault, s1, [])
  | (.ok _, s1) =>
    if s1.cursor = s1.pending_len then
      (.ok none, s1, [])
    else
      let ch := s1.queue_buf_rx.getD s1.cursor 0
      if pop then
        let s2 := { s1 with cursor := s1.cursor + 1 }
        match poll_retrieve penv s2 with
        | (.ok _, s3, evs) => (.ok (some ch), s3, evs)
        | (.error e, s3, evs) => (.err e, s3, evs)
      else
        (.ok (some ch), s1, [])

/-- Embedding of `VirtIOConsole::ack_interrupt`: if `transport.ack_interrupt()` reports
no pending interrupt, return `Ok(false)` without touching the pipeline;
otherwise delegate to `finish_receive`. -/
def ack_interrupt (intPending : Bool) (fenv : FinishEnv)
    (s : ConsoleState) : Outcome Bool × ConsoleState :=
  if intPending then finish_receive fenv s else (.ok false, s)

/-- Oracle for one transmit round trip: either the submission/notification
fails with an error, or after `waits` fruitless busy-wait polls the device
reports the submission complete with the given used length. -/
inductive TxOracle where
  | failed : VirtioError → TxOracle
  | completed : Nat → Nat → TxOracle
deriving DecidableEq, Repr

/-- Modelled from the spec: `VirtQueue::add_notify_wait_pop` (defined in
the repository's `queue.rs`, which is not under `src/`) "submits a
single-byte device-readable buffer to the transmit ring, notifies the
device, and blocks (busy-waits, polling ring completion) until the device
reports completion, then reclaims the descriptor"; failures propagate as
errors. -/
def add_notify_wait_pop (env : TxOracle) (qidx : Nat) (chr : Nat) :
    Except VirtioError Nat × List Event :=
  match env with
  | .failed e => (.error e, [])
  | .completed waits len =>
    (.ok len,
      Event.queueAdd qidx (BufSrc.txSingle chr) :: Event.notify qidx ::
        (List.replicate waits (Event.pollUsed qidx) ++
          [Event.observeUsed qidx, Event.popUsed qidx]))

/-- Embedding of `VirtIOConsole::send`: build the one-byte buffer `[chr]` and perform
`transmitq.add_notify_wait_pop(&[&buf], &mut [], transport)?`. None of the
console's receive-pipeline fields are touched. -/
def send (env : TxOracle) (chr : Nat) (s : ConsoleState) :
    Outcome Unit × ConsoleState × List Event :=
  match add_notify_wait_pop env QUEUE_TRANSMITQ_PORT_0 chr with
  | (.ok _, evs) => (.ok (), s, evs)
  | (.error e, evs) => (.err e, s, evs)

/-- Oracle for `VirtIOConsole::new`: the negotiated feature set returned by
`transport.begin_init(SUPPORTED_FEATURES)`, possible failures of
`config_space`, of the two `VirtQueue::new` calls, and the oracle for the
priming `poll_retrieve`. -/
structure NewEnv where
  negotiated : Nat
  configErr : Option VirtioError
  rxQueueErr : Option VirtioError
  txQueueErr : Option VirtioError
  primeAdd : Except VirtioError Nat
  primeNotify : Bool

/-- The console fields as initialised by the `VirtIOConsole { .. }`
literal in `new`, before the priming `poll_retrieve` call. -/
def initialState : ConsoleState :=
  { cursor := 0
    pending_len := 0
    receive_token := none
    queue_buf_rx := List.replicate PAGE_SIZE 0 }

/-- Embedding of `VirtIOConsole::new`: negotiate features, map the config space, build
the receive queue (index 0) and transmit queue (index 1) with the
indirect-descriptor and event-index flags taken from the negotiated set,
allocate the scratch page with `Box::new([0; PAGE_SIZE])`, finish
initialisation, then prime the pipeline with `poll_retrieve`. Any error
aborts construction. -/
def console_new (env : NewEnv) :
    Except VirtioError (ConsoleState × List Event) :=
  match env.configErr with
  | some e => .error e
  | none =>
    match env.rxQueueErr with
    | some e => .error e
    | none =>
      match env.txQueueErr with
      | some e => .error e
      | none =>
        match poll_retrieve ⟨env.primeAdd, env.primeNotify⟩ initialState with
        | (.ok _, s1, evs1) =>
          .ok (s1,
            [Event.queueNew QUEUE_RECEIVEQ_PORT_0
                (featuresContains env.negotiated RING_INDIRECT_DESC)
                (featuresContains env.negotiated RING_EVENT_IDX),
              Event.queueNew QUEUE_TRANSMITQ_PORT_0
                (featuresContains env.negotiated RING_INDIRECT_DESC)
                (featuresContains env.negotiated RING_EVENT_IDX),
              Event.boxAlloc PAGE_SIZE,
              Event.finishInit] ++ evs1)
        | (.error e, _, _) => .error e

/-- Observable steps of destroying a `VirtIOConsole`. -/
inductive DropEvent where
  /-- A `transport.queue_unset(idx)` call, from the `Drop` impl body. -/
  | queueUnset : Nat → DropEvent
  /-- The transport field is dropped. -/
  | releaseTransport : DropEvent
  /-- A `VirtQueue` field is dropped, freeing that ring's DMA memory. -/
  | releaseQueueMem : Nat → DropEvent
  /-- The `queue_buf_rx` box is dropped, freeing the scratch page. -/
  | releaseRxBuffer : DropEvent
deriving DecidableEq, Repr

/-- Embedding of `Drop for VirtIOConsole` followed by Rust's field-drop glue: the
`drop` body unsets both queues, then the fields are dropped in declaration
order (`transport`, `config_space` — no destructor —, `receiveq`,
`transmitq`, `queue_buf_rx`), releasing the ring memory and the scratch
buffer. The body reads none of the pipeline fields, so the sequence is the
same for every state. -/
def console_drop (_s : ConsoleState) : List DropEvent :=
  [DropEvent.queueUnset QUEUE_RECEIVEQ_PORT_0,
    DropEvent.queueUnset QUEUE_TRANSMITQ_PORT_0,
    DropEvent.releaseTransport,
    DropEvent.releaseQueueMem QUEUE_RECEIVEQ_PORT_0,
    DropEvent.releaseQueueMem QUEUE_TRANSMITQ_PORT_0,
    DropEvent.releaseRxBuffer]

/-- A memory-release step of teardown (buffer or ring memory freed). -/
def isMemRelease : DropEvent → Bool
  | DropEvent.releaseQueueMem _ => true
  | DropEvent.releaseRxBuffer => true
  | _ => false

/-- A submission of the receive scratch buffer to the receive queue. -/
def isRxSubmit : Event → Bool
  | Event.queueAdd 0 _ => true
  | _ => false

/-- An allocation event (from either allocator). -/
def isAllocEvent : Event → Bool
  | Event.boxAlloc _ => true
  | Event.halDmaAlloc _ => true
  | _ => false

/-- A `VirtQueue::new` call. -/
def isQueueNew : Event → Bool
  | Event.queueNew _ _ _ => true
  | _ => false

/-- Number of receive-request submissions in a trace. -/
def rxSubmits (evs : List Event) : Nat := evs.countP isRxSubmit

/-- A `FinishEnv` whose completions respect the ring contract as far as
size is concerned: the reported length never exceeds the scratch buffer,
and the device writes stay within the page. -/
def GoodFinishEnv (e : FinishEnv) : Prop :=
  ∀ c, e.completion = some c → c.len ≤ PAGE_SIZE ∧ c.data.length = PAGE_SIZE

/-- States a console handle can be in: freshly constructed, or the result
of any `recv`, `ack_interrupt` or `send` call (with size-respecting
completion oracles) on a reachable state, whatever that call's outcome. -/
inductive Reachable : ConsoleState → Prop where
  | init : ∀ env s evs, console_new env = .ok (s, evs) → Reachable s
  | recv_step : ∀ s fenv penv pop, Reachable s → GoodFinishEnv fenv →
      Reachable (recv fenv penv pop s).2.1
  | ack_step : ∀ s b fenv, Reachable s → GoodFinishEnv fenv →
      Reachable (ack_interrupt b fenv s).2
  | send_step : ∀ s env chr, Reachable s →
      Reachable (send env chr s).2.1

/-- The receive-pipeline invariant, with the auxiliary facts needed to
maintain it: the buffer keeps its page size, and while a request is
outstanding the buffer is fully drained. -/
def StrongInv (s : ConsoleState) : Prop :=
  s.cursor ≤ s.pending_len ∧ s.pending_len ≤ PAGE_SIZE ∧
    s.queue_buf_rx.length = PAGE_SIZE ∧
    (s.receive_token ≠ none → s.cursor = s.pending_len)

/-- Case analysis of `finish_receive`: it is a no-op reporting no data, a
propagated pop error, the zero-length fault, or a successful completion
resetting the pipeline; in the last three cases a token was outstanding. -/
lemma finish_receive_cases (fenv : FinishEnv) (s : ConsoleState) :
    finish_receive fenv s = (Outcome.ok false, s)
  ∨ (∃ e t, s.receive_token = some t ∧
      finish_receive fenv s = (Outcome.err e, s))
  ∨ (∃ t, s.receive_token = some t ∧
      finish_receive fenv s = (Outcome.fault, s))
  ∨ (∃ t c, s.receive_token = some t ∧ fenv.completion = some c ∧
      0 < c.len ∧
      finish_receive fenv s =
        (Outcome.ok true,
          { s with queue_buf_rx := c.data, cursor := 0,
                   pending_len := c.len, receive_token := none })) := by
  rcases htok : s.receive_token with _ | t
  · exact Or.inl (by simp [finish_receive, htok])
  · rcases hc : fenv.completion with _ | c
    · exact Or.inl (by simp [finish_receive, htok, hc])
    · rcases hp : fenv.popUsedErr with _ | e
      · by_cases hl : c.len = 0
        · exact Or.inr (Or.inr (Or.inl
            ⟨t, rfl, by simp [finish_receive, htok, hc, hp, hl]⟩))
        · exact Or.inr (Or.inr (Or.inr
            ⟨t, c, rfl, rfl, Nat.pos_of_ne_zero hl,
              by simp [finish_receive, htok, hc, hp, hl]⟩))
      · exact Or.inr (Or.inl
          ⟨e, t, rfl, by simp [finish_receive, htok, hc, hp]⟩)

/-- Characterisation of a successful construction: the priming `add`
succeeded, the initial state carries its token, and the trace is the two
queue constructions, the buffer allocation, `finish_init` and the priming
submission. -/
lemma console_new_ok {env : NewEnv} {s : ConsoleState} {evs : List Event}
    (h : console_new env = Except.ok (s, evs)) :
    ∃ tok, env.primeAdd = Except.ok tok ∧
      s = { initialState with receive_token := some tok } ∧
      evs =
        [Event.queueNew QUEUE_RECEIVEQ_PORT_0
            (featuresContains env.negotiated RING_INDIRECT_DESC)
            (featuresContains env.negotiated RING_EVENT_IDX),
          Event.queueNew QUEUE_TRANSMITQ_PORT_0
            (featuresContains env.negotiated RING_INDIRECT_DESC)
            (featuresContains env.negotiated RING_EVENT_IDX),
          Event.boxAlloc PAGE_SIZE,
          Event.finishInit,
          Event.queueAdd QUEUE_RECEIVEQ_PORT_0 BufSrc.rxScratch] ++
        (if env.primeNotify then [Event.notify QUEUE_RECEIVEQ_PORT_0]
         else []) := by
  unfold console_new at h
  rcases hcfg : env.configErr with _ | e <;> rw [hcfg] at h
  case some => exact absurd h (by simp)
  rcases hrx : env.rxQueueErr with _ | e <;> rw [hrx] at h
  case some => exact absurd h (by simp)
  rcases htx : env.txQueueErr with _ | e <;> rw [htx] at h
  case some => exact absurd h (by simp)
  rcases hadd : env.primeAdd with e | tok
  · rw [show poll_retrieve ⟨env.primeAdd, env.primeNotify⟩ initialState
        = (Except.error e, initialState, []) by
      simp [poll_retrieve, initialState, hadd]] at h
    exact absurd h (by simp)
  · rw [show poll_retrieve ⟨env.primeAdd, env.primeNotify⟩ initialState
        = (Except.ok (),
            { initialState with receive_token := some tok },
            Event.queueAdd QUEUE_RECEIVEQ_PORT_0 BufSrc.rxScratch ::
              (if env.primeNotify then [Event.notify QUEUE_RECEIVEQ_PORT_0]
               else [])) by
      simp [poll_retrieve, initialState, hadd]] at h
    rw [Except.ok.injEq, Prod.mk.injEq] at h
    obtain ⟨hs, hevs⟩ := h
    exact ⟨tok, rfl, hs.symm, by rw [← hevs]; simp⟩

/-- Claim C10: for every byte and every pipeline state, `send` leaves the
entire receive pipeline unchanged — `cursor`, `pending_len`, the
outstanding receive token and the scratch buffer contents are the same
after `send` returns (whether with `Ok` or `Err`) as before the call. -/
theorem send_preserves_receive_state (env : TxOracle) (chr : Nat)
    (s : ConsoleState) :
    (send env chr s).2.1.cursor = s.cursor
  ∧ (send env chr s).2.1.pending_len = s.pending_len
  ∧ (send env chr s).2.1.receive_token = s.receive_token
  ∧ (send env chr s).2.1.queue_buf_rx = s.queue_buf_rx := by
  cases env <;> simp [send, add_notify_wait_pop]

/-- Claim C9: `send` submits the single-byte device-readable buffer to the
transmit ring, notifies the device, busy-waits until completion is
observed, reclaims the descriptor and only then returns `Ok`; every
underlying failure propagates to the caller as an error. -/
theorem send_round_trip (chr : Nat) (s : ConsoleState) :
    (∀ e, send (TxOracle.failed e) chr s = (Outcome.err e, s, []))
  ∧ (∀ waits len, send (TxOracle.completed waits len) chr s =
      (Outcome.ok (), s,
        Event.queueAdd QUEUE_TRANSMITQ_PORT_0 (BufSrc.txSingle chr) ::
          Event.notify QUEUE_TRANSMITQ_PORT_0 ::
          (List.replicate waits (Event.pollUsed QUEUE_TRANSMITQ_PORT_0) ++
            [Event.observeUsed QUEUE_TRANSMITQ_PORT_0,
             Event.popUsed QUEUE_TRANSMITQ_PORT_0])))
  ∧ (∀ env, (send env chr s).1 = Outcome.ok () →
      Event.observeUsed QUEUE_TRANSMITQ_PORT_0 ∈ (send env chr s).2.2 ∧
      Event.popUsed QUEUE_TRANSMITQ_PORT_0 ∈ (send env chr s).2.2) := by
  refine ⟨fun e => by simp [send, add_notify_wait_pop],
    fun waits len => by simp [send, add_notify_wait_pop], fun env h => ?_⟩
  cases env with
  | failed e => simp [send, add_notify_wait_pop] at h
  | completed waits len => simp [send, add_notify_wait_pop]

/-- Witness for C9 at a concrete input. -/
theorem send_round_trip_witness :
    Event.observeUsed QUEUE_TRANSMITQ_PORT_0 ∈
      (send (TxOracle.completed 0 1) 65 initialState).2.2 ∧
    Event.popUsed QUEUE_TRANSMITQ_PORT_0 ∈
      (send (TxOracle.completed 0 1) 65 initialState).2.2 :=
  (send_round_trip 65 initialState).2.2 (TxOracle.completed 0 1) (by decide)

/-- Claim C8: destroying a handle issues the ring detachments for queue
indices 0 and 1 as the first two teardown steps, and every release of
owned buffer or ring memory happens strictly after them, for every state
(in particular whether or not a receive request was outstanding). -/
theorem teardown_unsets_before_release (s : ConsoleState) :
    ((console_drop s).getD 0 DropEvent.releaseRxBuffer
        = DropEvent.queueUnset QUEUE_RECEIVEQ_PORT_0
      ∧ (console_drop s).getD 1 DropEvent.releaseRxBuffer
        = DropEvent.queueUnset QUEUE_TRANSMITQ_PORT_0)
  ∧ ∀ j, isMemRelease ((console_drop s).getD j (DropEvent.queueUnset 0))
      = true → 2 ≤ j := by
  refine ⟨⟨rfl, rfl⟩, fun j h => ?_⟩
  match j, h with
  | 0, h => simp [console_drop, isMemRelease] at h
  | 1, h => simp [console_drop, isMemRelease, QUEUE_TRANSMITQ_PORT_0] at h
  | (n + 2), _ => omega

/-- Witness for C8 at a concrete input. -/
theorem teardown_unsets_before_release_witness :
    isMemRelease ((console_drop initialState).getD 3 (DropEvent.queueUnset 0))
      = true ∧ 2 ≤ 3 :=
  ⟨by rfl, (teardown_unsets_before_release initialState).2 3 (by rfl)⟩

/-- Claim C4: a completed receive reported with length zero makes
`finish_receive` — and hence `recv` and `ack_interrupt`, which reach it —
surface an unrecoverable fault (the Rust `assert_ne!(len, 0)`), never
"nothing available" and never a silent no-op. -/
theorem zero_length_completion_faults (s : ConsoleState) (fenv : FinishEnv)
    (t : Nat) (c : RecvCompletion)
    (htok : s.receive_token = some t) (hc : fenv.completion = some c)
    (hlen : c.len = 0) (hpop : fenv.popUsedErr = none) :
    finish_receive fenv s = (Outcome.fault, s)
  ∧ (∀ penv pop, recv fenv penv pop s = (Outcome.fault, s, []))
  ∧ ack_interrupt true fenv s = (Outcome.fault, s) := by
  have h1 : finish_receive fenv s = (Outcome.fault, s) := by
    simp [finish_receive, htok, hc, hpop, hlen]
  exact ⟨h1, fun penv pop => by simp [recv, h1], by simp [ack_interrupt, h1]⟩

/-- Witness for C4 at a concrete input. -/
theorem zero_length_completion_faults_witness :
    finish_receive ⟨some ⟨0, List.replicate PAGE_SIZE 0⟩, none⟩
      { cursor := 0, pending_len := 0, receive_token := some 0,
        queue_buf_rx := List.replicate PAGE_SIZE 0 }
      = (Outcome.fault,
        { cursor := 0, pending_len := 0, receive_token := some 0,
          queue_buf_rx := List.replicate PAGE_SIZE 0 }) :=
  (zero_length_completion_faults
    { cursor := 0, pending_len := 0, receive_token := some 0,
      queue_buf_rx := List.replicate PAGE_SIZE 0 }
    ⟨some ⟨0, List.replicate PAGE_SIZE 0⟩, none⟩ 0
    ⟨0, List.replicate PAGE_SIZE 0⟩ rfl rfl rfl rfl).1

/-- When a token is outstanding or unread data remains, `poll_retrieve`
does nothing and succeeds. -/
lemma poll_retrieve_no_submit {penv : PollEnv} {s : ConsoleState}
    (h : ¬(s.receive_token = none ∧ s.cursor = s.pending_len)) :
    poll_retrieve penv s = (Except.ok (), s, []) := by
  unfold poll_retrieve
  rw [if_neg h]

/-- When idle and drained and the ring accepts the buffer,
`poll_retrieve` records the new token and emits the submission (plus the
notification when the ring asks for one). -/
lemma poll_retrieve_submit {penv : PollEnv} {s : ConsoleState} {tok : Nat}
    (hadd : penv.addResult = Except.ok tok)
    (h : s.receive_token = none ∧ s.cursor = s.pending_len) :
    poll_retrieve penv s =
      (Except.ok (), { s with receive_token := some tok },
        Event.queueAdd QUEUE_RECEIVEQ_PORT_0 BufSrc.rxScratch ::
          (if penv.shouldNotify then [Event.notify QUEUE_RECEIVEQ_PORT_0]
           else [])) := by
  simp [poll_retrieve, h.1, h.2, hadd]

/-- The submission trace of an idle-and-drained `poll_retrieve` contains
exactly one receive-request submission. -/
lemma rxSubmits_submit_trace (penv : PollEnv) :
    rxSubmits (Event.queueAdd QUEUE_RECEIVEQ_PORT_0 BufSrc.rxScratch ::
      (if penv.shouldNotify then [Event.notify QUEUE_RECEIVEQ_PORT_0]
       else [])) = 1 := by
  cases hn : penv.shouldNotify <;>
    simp [rxSubmits, isRxSubmit, QUEUE_RECEIVEQ_PORT_0]

/-- Claim C2: given a ring that accepts the submission, `poll_retrieve`
submits a receive request iff no token is outstanding and
`cursor = pending_len`; when a token is outstanding or unread data
remains it leaves all state unchanged and returns success; and two calls
in a row with no intervening completion submit at most one request. -/
theorem poll_retrieve_submit_iff (penv : PollEnv) (s : ConsoleState)
    (tok : Nat) (hadd : penv.addResult = Except.ok tok) :
    (0 < rxSubmits (poll_retrieve penv s).2.2 ↔
      (s.receive_token = none ∧ s.cursor = s.pending_len))
  ∧ ((s.receive_token ≠ none ∨ s.cursor ≠ s.pending_len) →
      poll_retrieve penv s = (Except.ok (), s, []))
  ∧ (∀ penv2 : PollEnv,
      rxSubmits (poll_retrieve penv s).2.2 +
        rxSubmits (poll_retrieve penv2 (poll_retrieve penv s).2.1).2.2
        ≤ 1) := by
  by_cases hg : s.receive_token = none ∧ s.cursor = s.pending_len
  · have h1 := poll_retrieve_submit hadd hg
    have h2 := rxSubmits_submit_trace penv
    refine ⟨⟨fun _ => hg, fun _ => by simp [h1, h2]⟩, ?_, ?_⟩
    · rintro (hne | hne)
      · exact absurd hg.1 hne
      · exact absurd hg.2 hne
    · intro penv2
      have h3 : poll_retrieve penv2 { s with receive_token := some tok }
          = (Except.ok (), { s with receive_token := some tok }, []) :=
        poll_retrieve_no_submit (by simp)
      have h2' : List.countP isRxSubmit
          (Event.queueAdd QUEUE_RECEIVEQ_PORT_0 BufSrc.rxScratch ::
            (if penv.shouldNotify then [Event.notify QUEUE_RECEIVEQ_PORT_0]
             else [])) = 1 := h2
      simp [h1, h3, rxSubmits, h2']
  · have h1 := @poll_retrieve_no_submit penv s hg
    refine ⟨iff_of_false (by simp [h1, rxSubmits]) hg, fun _ => h1, ?_⟩
    intro penv2
    have h3 := @poll_retrieve_no_submit penv2 s hg
    simp [h1, h3, rxSubmits]

/-- Witness for C2 at a concrete input. -/
theorem poll_retrieve_submit_iff_witness :
    0 < rxSubmits (poll_retrieve ⟨Except.ok 7, true⟩ initialState).2.2 ↔
      (initialState.receive_token = none ∧
        initialState.cursor = initialState.pending_len) :=
  (poll_retrieve_submit_iff ⟨Except.ok 7, true⟩ initialState 7 rfl).1

/-- Claim C5: `recv` never reports absence of data as an error — whenever
the non-blocking completion check leaves `cursor = pending_len` it
returns `Ok(None)`, and in particular it does so on a freshly constructed
handle whose primed receive request has not completed. -/
theorem recv_no_data_is_ok_none :
    (∀ fenv penv pop s b s1,
        finish_receive fenv s = (Outcome.ok b, s1) →
        s1.cursor = s1.pending_len →
        recv fenv penv pop s = (Outcome.ok none, s1, []))
  ∧ (∀ env s evs penv pop, console_new env = Except.ok (s, evs) →
        recv ⟨none, none⟩ penv pop s = (Outcome.ok none, s, [])) := by
  have part1 : ∀ fenv penv pop s b s1,
      finish_receive fenv s = (Outcome.ok b, s1) →
      s1.cursor = s1.pending_len →
      recv fenv penv pop s = (Outcome.ok none, s1, []) := by
    intro fenv penv pop s b s1 hfin hcp
    simp [recv, hfin, hcp]
  refine ⟨part1, fun env s evs penv pop hnew => ?_⟩
  obtain ⟨tok, hadd, hs, hevs⟩ := console_new_ok hnew
  subst hs
  exact part1 _ _ _ _ false _ (by simp [finish_receive])
    (by simp [initialState])

/-- Witness for C5 at a concrete input. -/
theorem recv_no_data_is_ok_none_witness :
    recv ⟨none, none⟩ ⟨Except.ok 0, false⟩ true
      { cursor := 0, pending_len := 0, receive_token := some 0,
        queue_buf_rx := List.replicate PAGE_SIZE 0 }
      = (Outcome.ok none,
        { cursor := 0, pending_len := 0, receive_token := some 0,
          queue_buf_rx := List.replicate PAGE_SIZE 0 }, []) :=
  recv_no_data_is_ok_none.2 ⟨0, none, none, none, Except.ok 0, false⟩
    { cursor := 0, pending_len := 0, receive_token := some 0,
      queue_buf_rx := List.replicate PAGE_SIZE 0 }
    [Event.queueNew QUEUE_RECEIVEQ_PORT_0 false false,
      Event.queueNew QUEUE_TRANSMITQ_PORT_0 false false,
      Event.boxAlloc PAGE_SIZE, Event.finishInit,
      Event.queueAdd QUEUE_RECEIVEQ_PORT_0 BufSrc.rxScratch]
    ⟨Except.ok 0, false⟩ true (by rfl)

/-- Claim C6: both ring constructions (receive queue at index 0, transmit
queue at index 1) take their indirect-descriptor and event-index flags
from the negotiated feature set returned by the transport — and these are
the only ring constructions — while the driver's requested set
`SUPPORTED_FEATURES` (which does contain both bits, so a declined feature
shows up as `false` below) is never consulted. -/
theorem queue_construction_uses_negotiated :
    (∀ env s evs, console_new env = Except.ok (s, evs) →
      evs.take 2 =
        [Event.queueNew QUEUE_RECEIVEQ_PORT_0
            (featuresContains env.negotiated RING_INDIRECT_DESC)
            (featuresContains env.negotiated RING_EVENT_IDX),
          Event.queueNew QUEUE_TRANSMITQ_PORT_0
            (featuresContains env.negotiated RING_INDIRECT_DESC)
            (featuresContains env.negotiated RING_EVENT_IDX)]
      ∧ (∀ e ∈ evs.drop 2, isQueueNew e = false))
  ∧ featuresContains SUPPORTED_FEATURES RING_INDIRECT_DESC = true
  ∧ featuresContains SUPPORTED_FEATURES RING_EVENT_IDX = true := by
  refine ⟨fun env s evs hnew => ?_, by decide, by decide⟩
  obtain ⟨tok, hadd, hs, hevs⟩ := console_new_ok hnew
  subst hevs
  refine ⟨by simp, fun e he => ?_⟩
  cases hn : env.primeNotify
  · simp [hn] at he
    rcases he with rfl | rfl | rfl <;> rfl
  · simp [hn] at he
    rcases he with rfl | rfl | rfl | rfl <;> rfl

/-- Witness for C6 at a concrete input. -/
theorem queue_construction_uses_negotiated_witness :
    List.take 2
      [Event.queueNew QUEUE_RECEIVEQ_PORT_0
          (featuresContains SUPPORTED_FEATURES RING_INDIRECT_DESC)
          (featuresContains SUPPORTED_FEATURES RING_EVENT_IDX),
        Event.queueNew QUEUE_TRANSMITQ_PORT_0
          (featuresContains SUPPORTED_FEATURES RING_INDIRECT_DESC)
          (featuresContains SUPPORTED_FEATURES RING_EVENT_IDX),
        Event.boxAlloc PAGE_SIZE, Event.finishInit,
        Event.queueAdd QUEUE_RECEIVEQ_PORT_0 BufSrc.rxScratch] =
      [Event.queueNew QUEUE_RECEIVEQ_PORT_0
          (featuresContains SUPPORTED_FEATURES RING_INDIRECT_DESC)
          (featuresContains SUPPORTED_FEATURES RING_EVENT_IDX),
        Event.queueNew QUEUE_TRANSMITQ_PORT_0
          (featuresContains SUPPORTED_FEATURES RING_INDIRECT_DESC)
          (featuresContains SUPPORTED_FEATURES RING_EVENT_IDX)] :=
  ((queue_construction_uses_negotiated.1
      ⟨SUPPORTED_FEATURES, none, none, none, Except.ok 0, false⟩
      { cursor := 0, pending_len := 0, receive_token := some 0,
        queue_buf_rx := List.replicate PAGE_SIZE 0 }
      [Event.queueNew QUEUE_RECEIVEQ_PORT_0
          (featuresContains SUPPORTED_FEATURES RING_INDIRECT_DESC)
          (featuresContains SUPPORTED_FEATURES RING_EVENT_IDX),
        Event.queueNew QUEUE_TRANSMITQ_PORT_0
          (featuresContains SUPPORTED_FEATURES RING_INDIRECT_DESC)
          (featuresContains SUPPORTED_FEATURES RING_EVENT_IDX),
        Event.boxAlloc PAGE_SIZE, Event.finishInit,
        Event.queueAdd QUEUE_RECEIVEQ_PORT_0 BufSrc.rxScratch]
      (by rfl)).1)

/-- Counterexample to C7 as stated: on a successful construction the
scratch buffer allocation in the trace is a global-allocator `Box`
allocation (`Box::new([0; PAGE_SIZE])` in the source), and no allocation
through the platform memory (`Hal`) abstraction occurs at all. -/
theorem scratch_alloc_not_from_hal :
    ∃ s evs,
      console_new ⟨SUPPORTED_FEATURES, none, none, none, Except.ok 0, false⟩
          = Except.ok (s, evs)
        ∧ Event.boxAlloc PAGE_SIZE ∈ evs
        ∧ ∀ n, Event.halDmaAlloc n ∉ evs := by
  exact ⟨_, _, rfl, by simp, fun n => by simp⟩

/-- Every receive submission a `poll_retrieve` call emits hands the
scratch buffer to the receive queue. -/
lemma poll_trace_scratch_only (penv : PollEnv) (s : ConsoleState) :
    ∀ e ∈ (poll_retrieve penv s).2.2, isRxSubmit e = true →
      e = Event.queueAdd QUEUE_RECEIVEQ_PORT_0 BufSrc.rxScratch := by
  intro e he hsub
  by_cases hg : s.receive_token = none ∧ s.cursor = s.pending_len
  · rcases hadd : penv.addResult with e' | tok
    · rw [show (poll_retrieve penv s).2.2 = [] by
        simp [poll_retrieve, hg.1, hg.2, hadd]] at he
      exact absurd he (by simp)
    · rw [poll_retrieve_submit hadd hg] at he
      simp at he
      rcases he with rfl | he
      · rfl
      · cases hn : penv.shouldNotify <;> rw [hn] at he <;> simp at he
        subst he
        exact absurd hsub (by simp [isRxSubmit, QUEUE_RECEIVEQ_PORT_0])
  · rw [poll_retrieve_no_submit hg] at he
    exact absurd he (by simp)

/-- The trace of a `recv` call is empty or comes from its inner
`poll_retrieve`. -/
lemma recv_trace (fenv : FinishEnv) (penv : PollEnv) (pop : Bool)
    (s : ConsoleState) :
    (recv fenv penv pop s).2.2 = [] ∨
    ∃ s2, (recv fenv penv pop s).2.2 = (poll_retrieve penv s2).2.2 := by
  rcases hfin : finish_receive fenv s with ⟨r, s1⟩
  cases r with
  | err e => exact Or.inl (by simp [recv, hfin])
  | fault => exact Or.inl (by simp [recv, hfin])
  | ok b =>
    by_cases hcp : s1.cursor = s1.pending_len
    · exact Or.inl (by simp [recv, hfin, hcp])
    · cases pop with
      | false => exact Or.inl (by simp [recv, hfin, hcp])
      | true =>
        refine Or.inr ⟨{ s1 with cursor := s1.cursor + 1 }, ?_⟩
        rcases hp : poll_retrieve penv { s1 with cursor := s1.cursor + 1 }
          with ⟨r2, s3, evs⟩
        cases r2 <;> simp [recv, hfin, hcp, hp]

/-- Claim C7, amended: construction performs exactly one buffer
allocation — one page-sized scratch buffer, allocated with the global
allocator rather than through the platform memory abstraction — and every
receive request ever submitted (by `poll_retrieve`, by `recv`, or by the
priming submission of `new`) hands that same scratch buffer to the
device. -/
theorem scratch_buffer_alloc_and_reuse :
    (∀ env s evs, console_new env = Except.ok (s, evs) →
        evs.countP isAllocEvent = 1 ∧ Event.boxAlloc PAGE_SIZE ∈ evs)
  ∧ (∀ penv s, ∀ e ∈ (poll_retrieve penv s).2.2, isRxSubmit e = true →
        e = Event.queueAdd QUEUE_RECEIVEQ_PORT_0 BufSrc.rxScratch)
  ∧ (∀ fenv penv pop s, ∀ e ∈ (recv fenv penv pop s).2.2,
        isRxSubmit e = true →
        e = Event.queueAdd QUEUE_RECEIVEQ_PORT_0 BufSrc.rxScratch)
  ∧ (∀ env s evs, console_new env = Except.ok (s, evs) →
        ∀ e ∈ evs, isRxSubmit e = true →
          e = Event.queueAdd QUEUE_RECEIVEQ_PORT_0 BufSrc.rxScratch) := by
  refine ⟨fun env s evs hnew => ?_, poll_trace_scratch_only,
    fun fenv penv pop s e he hsub => ?_, fun env s evs hnew e he hsub => ?_⟩
  · obtain ⟨tok, hadd, hs, hevs⟩ := console_new_ok hnew
    subst hevs
    cases hn : env.primeNotify <;>
      simp [hn, isAllocEvent, QUEUE_RECEIVEQ_PORT_0]
  · rcases recv_trace fenv penv pop s with h | ⟨s2, h⟩
    · rw [h] at he
      exact absurd he (by simp)
    · rw [h] at he
      exact poll_trace_scratch_only penv s2 e he hsub
  · obtain ⟨tok, hadd, hs, hevs⟩ := console_new_ok hnew
    subst hevs
    cases hn : env.primeNotify <;> rw [hn] at he <;> simp at he
    · rcases he with rfl | rfl | rfl | rfl | rfl <;>
        first
          | rfl
          | exact absurd hsub (by simp [isRxSubmit])
    · rcases he with rfl | rfl | rfl | rfl | rfl | rfl <;>
        first
          | rfl
          | exact absurd hsub (by simp [isRxSubmit, QUEUE_RECEIVEQ_PORT_0])

/-- Witness for the amended C7 at a concrete input. -/
theorem scratch_buffer_alloc_and_reuse_witness :
    List.countP isAllocEvent
      [Event.queueNew QUEUE_RECEIVEQ_PORT_0
          (featuresContains SUPPORTED_FEATURES RING_INDIRECT_DESC)
          (featuresContains SUPPORTED_FEATURES RING_EVENT_IDX),
        Event.queueNew QUEUE_TRANSMITQ_PORT_0
          (featuresContains SUPPORTED_FEATURES RING_INDIRECT_DESC)
          (featuresContains SUPPORTED_FEATURES RING_EVENT_IDX),
        Event.boxAlloc PAGE_SIZE, Event.finishInit,
        Event.queueAdd QUEUE_RECEIVEQ_PORT_0 BufSrc.rxScratch] = 1 ∧
    Event.boxAlloc PAGE_SIZE ∈
      [Event.queueNew QUEUE_RECEIVEQ_PORT_0
          (featuresContains SUPPORTED_FEATURES RING_INDIRECT_DESC)
          (featuresContains SUPPORTED_FEATURES RING_EVENT_IDX),
        Event.queueNew QUEUE_TRANSMITQ_PORT_0
          (featuresContains SUPPORTED_FEATURES RING_INDIRECT_DESC)
          (featuresContains SUPPORTED_FEATURES RING_EVENT_IDX),
        Event.boxAlloc PAGE_SIZE, Event.finishInit,
        Event.queueAdd QUEUE_RECEIVEQ_PORT_0 BufSrc.rxScratch] :=
  scratch_buffer_alloc_and_reuse.1
    ⟨SUPPORTED_FEATURES, none, none, none, Except.ok 0, false⟩
    { cursor := 0, pending_len := 0, receive_token := some 0,
      queue_buf_rx := List.replicate PAGE_SIZE 0 }
    [Event.queueNew QUEUE_RECEIVEQ_PORT_0
        (featuresContains SUPPORTED_FEATURES RING_INDIRECT_DESC)
        (featuresContains SUPPORTED_FEATURES RING_EVENT_IDX),
      Event.queueNew QUEUE_TRANSMITQ_PORT_0
        (featuresContains SUPPORTED_FEATURES RING_INDIRECT_DESC)
        (featuresContains SUPPORTED_FEATURES RING_EVENT_IDX),
      Event.boxAlloc PAGE_SIZE, Event.finishInit,
      Event.queueAdd QUEUE_RECEIVEQ_PORT_0 BufSrc.rxScratch]
    (by rfl)

/-- With a size-respecting completion oracle, `finish_receive` preserves
the pipeline invariant. -/
lemma finish_receive_inv {fenv : FinishEnv} {s : ConsoleState}
    (he : GoodFinishEnv fenv) (h : StrongInv s) :
    StrongInv (finish_receive fenv s).2 := by
  rcases finish_receive_cases fenv s with
    hc | ⟨e, t, htok, hc⟩ | ⟨t, htok, hc⟩ | ⟨t, c, htok, hcomp, hlen, hc⟩ <;>
    rw [hc]
  · exact h
  · exact h
  · exact h
  · obtain ⟨hl, hd⟩ := he c hcomp
    exact ⟨Nat.zero_le _, hl, hd, fun hn => absurd rfl hn⟩

/-- The call `poll_retrieve` preserves the pipeline invariant. -/
lemma poll_retrieve_inv {penv : PollEnv} {s : ConsoleState}
    (h : StrongInv s) : StrongInv (poll_retrieve penv s).2.1 := by
  by_cases hg : s.receive_token = none ∧ s.cursor = s.pending_len
  · rcases hadd : penv.addResult with e | tok
    · rw [show poll_retrieve penv s = (Except.error e, s, []) by
        simp [poll_retrieve, hg.1, hg.2, hadd]]
      exact h
    · rw [poll_retrieve_submit hadd hg]
      exact ⟨h.1, h.2.1, h.2.2.1, fun _ => hg.2⟩
  · rw [poll_retrieve_no_submit hg]
    exact h

/-- On success `poll_retrieve` returns `Ok` whether or not it submitted. -/
lemma poll_retrieve_ok {penv : PollEnv} {tok : Nat}
    (hadd : penv.addResult = Except.ok tok) (s : ConsoleState) :
    ∃ s' evs, poll_retrieve penv s = (Except.ok (), s', evs) := by
  by_cases hg : s.receive_token = none ∧ s.cursor = s.pending_len
  · exact ⟨_, _, poll_retrieve_submit hadd hg⟩
  · exact ⟨_, _, poll_retrieve_no_submit hg⟩

/-- The call `recv` preserves the pipeline invariant. -/
lemma recv_inv {fenv : FinishEnv} {penv : PollEnv} {pop : Bool}
    {s : ConsoleState} (he : GoodFinishEnv fenv) (h : StrongInv s) :
    StrongInv (recv fenv penv pop s).2.1 := by
  have h1 := @finish_receive_inv fenv s he h
  rcases hfin : finish_receive fenv s with ⟨r, s1⟩
  rw [hfin] at h1
  cases r with
  | err e => simpa [recv, hfin] using h1
  | fault => simpa [recv, hfin] using h1
  | ok b =>
    by_cases hcp : s1.cursor = s1.pending_len
    · simpa [recv, hfin, hcp] using h1
    · cases pop with
      | false => simpa [recv, hfin, hcp] using h1
      | true =>
        have hlt : s1.cursor < s1.pending_len :=
          Nat.lt_of_le_of_ne h1.1 hcp
        have h2 : StrongInv { s1 with cursor := s1.cursor + 1 } :=
          ⟨hlt, h1.2.1, h1.2.2.1, fun hn => absurd (h1.2.2.2 hn) hcp⟩
        have h3 := @poll_retrieve_inv penv _ h2
        rcases hp : poll_retrieve penv { s1 with cursor := s1.cursor + 1 }
          with ⟨r2, s3, evs⟩
        rw [hp] at h3
        cases r2 <;> simpa [recv, hfin, hcp, hp] using h3

/-- The call `ack_interrupt` preserves the pipeline invariant. -/
lemma ack_interrupt_inv {b : Bool} {fenv : FinishEnv} {s : ConsoleState}
    (he : GoodFinishEnv fenv) (h : StrongInv s) :
    StrongInv (ack_interrupt b fenv s).2 := by
  cases b with
  | false => simpa [ack_interrupt] using h
  | true =>
    have := @finish_receive_inv fenv s he h
    simpa [ack_interrupt] using this

/-- The call `send` preserves the pipeline invariant. -/
lemma send_inv {env : TxOracle} {chr : Nat} {s : ConsoleState}
    (h : StrongInv s) : StrongInv (send env chr s).2.1 := by
  cases env <;> simpa [send, add_notify_wait_pop] using h

/-- Every reachable state satisfies the pipeline invariant. -/
lemma reachable_strong_inv {s : ConsoleState} (h : Reachable s) :
    StrongInv s := by
  induction h with
  | init env s evs hnew =>
    obtain ⟨tok, _, hs, _⟩ := console_new_ok hnew
    subst hs
    exact ⟨Nat.le_refl 0, Nat.zero_le _, by simp [initialState],
      fun _ => rfl⟩
  | recv_step s fenv penv pop _ he ih => exact recv_inv he ih
  | ack_step s b fenv _ he ih => exact ack_interrupt_inv he ih
  | send_step s env chr _ ih => exact send_inv ih

/-- Claim C1: in every reachable state the receive pipeline satisfies
`cursor ≤ pending_len ≤ PAGE_SIZE`, and (with collaborators that accept
the resubmission) `recv` returns a byte to the caller iff
`cursor < pending_len` after the non-blocking completion check. -/
theorem reachable_pipeline_invariant (s : ConsoleState)
    (hs : Reachable s) :
    (s.cursor ≤ s.pending_len ∧ s.pending_len ≤ PAGE_SIZE)
  ∧ (∀ fenv penv pop tok, GoodFinishEnv fenv →
      penv.addResult = Except.ok tok →
      ((∃ b, (recv fenv penv pop s).1 = Outcome.ok (some b)) ↔
        (finish_receive fenv s).2.cursor
          < (finish_receive fenv s).2.pending_len)) := by
  have hinv := reachable_strong_inv hs
  refine ⟨⟨hinv.1, hinv.2.1⟩, fun fenv penv pop tok he hadd => ?_⟩
  rcases finish_receive_cases fenv s with
    hc | ⟨e, t, htok, hc⟩ | ⟨t, htok, hc⟩ | ⟨t, c, htok, hcomp, hlen, hc⟩
  · by_cases hcp : s.cursor = s.pending_len
    · have hr : recv fenv penv pop s = (Outcome.ok none, s, []) := by
        simp [recv, hc, hcp]
      exact iff_of_false (by simp [hr]) (by simp [hc, hcp])
    · have hlt : s.cursor < s.pending_len :=
        Nat.lt_of_le_of_ne hinv.1 hcp
      cases pop with
      | false =>
        have hr : recv fenv penv false s =
            (Outcome.ok (some (s.queue_buf_rx.getD s.cursor 0)), s, []) := by
          simp [recv, hc, hcp]
        exact iff_of_true ⟨s.queue_buf_rx.getD s.cursor 0, by rw [hr]⟩
          (by simpa [hc] using hlt)
      | true =>
        obtain ⟨s', evs', hp⟩ :=
          poll_retrieve_ok hadd { s with cursor := s.cursor + 1 }
        have hr : recv fenv penv true s =
            (Outcome.ok (some (s.queue_buf_rx.getD s.cursor 0)), s', evs') := by
          simp [recv, hc, hcp, hp]
        exact iff_of_true ⟨s.queue_buf_rx.getD s.cursor 0, by rw [hr]⟩
          (by simpa [hc] using hlt)
  · have hdr : s.cursor = s.pending_len := hinv.2.2.2 (by simp [htok])
    have hr : recv fenv penv pop s = (Outcome.err e, s, []) := by
      simp [recv, hc]
    exact iff_of_false (by simp [hr]) (by simp [hc, hdr])
  · have hdr : s.cursor = s.pending_len := hinv.2.2.2 (by simp [htok])
    have hr : recv fenv penv pop s = (Outcome.fault, s, []) := by
      simp [recv, hc]
    exact iff_of_false (by simp [hr]) (by simp [hc, hdr])
  · have hne : ¬(((0 : Nat)) = c.len) := (Nat.ne_of_lt hlen)
    cases pop with
    | false =>
      have hr : recv fenv penv false s =
          (Outcome.ok (some (c.data.getD 0 0)),
            { s with queue_buf_rx := c.data, cursor := 0,
                     pending_len := c.len, receive_token := none }, []) := by
        simp [recv, hc, hne]
      exact iff_of_true ⟨c.data.getD 0 0, by rw [hr]⟩ (by simp [hc, hlen])
    | true =>
      obtain ⟨s', evs', hp⟩ := poll_retrieve_ok hadd
        { s with queue_buf_rx := c.data, cursor := 0 + 1,
                 pending_len := c.len, receive_token := none }
      have hr : recv fenv penv true s =
          (Outcome.ok (some (c.data.getD 0 0)), s', evs') := by
        simp [recv, hc, hne, hp]
      exact iff_of_true ⟨c.data.getD 0 0, by rw [hr]⟩ (by simp [hc, hlen])

/-- Witness for C1 at a concrete reachable state (a fresh handle). -/
theorem reachable_pipeline_invariant_witness :
    ({ cursor := 0, pending_len := 0, receive_token := some 0,
        queue_buf_rx := List.replicate PAGE_SIZE 0 } : ConsoleState).cursor
      ≤ ({ cursor := 0, pending_len := 0, receive_token := some 0,
             queue_buf_rx := List.replicate PAGE_SIZE 0 } : ConsoleState).pending_len
    ∧ ({ cursor := 0, pending_len := 0, receive_token := some 0,
          queue_buf_rx := List.replicate PAGE_SIZE 0 } : ConsoleState).pending_len
      ≤ PAGE_SIZE :=
  (reachable_pipeline_invariant
    { cursor := 0, pending_len := 0, receive_token := some 0,
      queue_buf_rx := List.replicate PAGE_SIZE 0 }
    (Reachable.init ⟨0, none, none, none, Except.ok 0, false⟩
      { cursor := 0, pending_len := 0, receive_token := some 0,
        queue_buf_rx := List.replicate PAGE_SIZE 0 }
      [Event.queueNew QUEUE_RECEIVEQ_PORT_0 false false,
        Event.queueNew QUEUE_TRANSMITQ_PORT_0 false false,
        Event.boxAlloc PAGE_SIZE, Event.finishInit,
        Event.queueAdd QUEUE_RECEIVEQ_PORT_0 BufSrc.rxScratch]
      (by rfl))).1

/-- A `finish_receive` oracle in which the ring reports no (new)
completion. -/
def noCompletion : FinishEnv := ⟨none, none⟩

/-- The pipeline state while draining a completed receive of length `L`
with `c` bytes already consumed: `cursor = c`, `pending_len = L`, no
outstanding token, scratch buffer holding the delivered bytes. -/
def midDrainState (L : Nat) (data : List Nat) (c : Nat) : ConsoleState :=
  { cursor := c
    pending_len := L
    receive_token := none
    queue_buf_rx := data }

/-- The pipeline state just after `finish_receive` completed a receive of
length `L` delivering `data`. -/
def postCompletionState (L : Nat) (data : List Nat) : ConsoleState :=
  midDrainState L data 0

/-- Iterate `n` successive `recv(pop = true)` calls with no intervening device
completion, collecting the outcomes. -/
def recvDrain (penv : PollEnv) : Nat → ConsoleState →
    List (Outcome (Option Nat)) × ConsoleState
  | 0, s => ([], s)
  | n + 1, s =>
    ((recv noCompletion penv true s).1 ::
        (recvDrain penv n (recv noCompletion penv true s).2.1).1,
      (recvDrain penv n (recv noCompletion penv true s).2.1).2)

/-- One consuming `recv` call mid-drain: it returns the byte at the
cursor, advances, and submits a fresh receive request exactly when the
buffer becomes fully drained. -/
lemma recv_drain_step (L : Nat) (data : List Nat) (tok : Nat) (ntf : Bool)
    (c : Nat) (hcL : c < L) :
    recv noCompletion ⟨Except.ok tok, ntf⟩ true (midDrainState L data c)
      = (Outcome.ok (some (data.getD c 0)),
        (if c + 1 = L
         then { midDrainState L data (c + 1) with receive_token := some tok }
         else midDrainState L data (c + 1)),
        if c + 1 = L
        then Event.queueAdd QUEUE_RECEIVEQ_PORT_0 BufSrc.rxScratch ::
          (if ntf then [Event.notify QUEUE_RECEIVEQ_PORT_0] else [])
        else []) := by
  have hne : ¬(c = L) := Nat.ne_of_lt hcL
  by_cases hE : c + 1 = L <;>
    simp [recv, finish_receive, noCompletion, poll_retrieve, midDrainState,
      hne, hE]

/-- Unrolling the drain: starting `c` bytes in, `n ≤ L - c` further
consuming `recv` calls return the bytes `data[c], …, data[c+n-1]` in
order, and a fresh receive request is submitted exactly when the buffer
becomes fully drained. -/
lemma recvDrain_aux (L : Nat) (data : List Nat) (tok : Nat) (ntf : Bool) :
    ∀ n c, c + n ≤ L →
      recvDrain ⟨Except.ok tok, ntf⟩ n (midDrainState L data c) =
        ((List.range n).map
            (fun i => Outcome.ok (some (data.getD (c + i) 0))),
          if c + n = L ∧ 0 < n
          then { midDrainState L data (c + n) with receive_token := some tok }
          else midDrainState L data (c + n)) := by
  intro n
  induction n with
  | zero =>
    intro c hc
    simp [recvDrain]
  | succ n ih =>
    intro c hc
    have hcL : c < L := by omega
    by_cases hE : c + 1 = L
    · have hn0 : n = 0 := by omega
      subst hn0
      simp [recvDrain, recv_drain_step L data tok ntf c hcL, hE,
        List.range_succ]
    · have hih := ih (c + 1) (by omega)
      have harith : ∀ i : Nat, c + 1 + i = c + (i + 1) := fun i => by omega
      have hsum : c + 1 + n = c + (n + 1) := by omega
      simp only [recvDrain, recv_drain_step L data tok ntf c hcL, hE,
        if_false, ite_false]
      simp only [hih]
      rw [Prod.mk.injEq]
      refine ⟨?_, ?_⟩
      · simp [List.range_succ_eq_map, List.map_map, Function.comp, harith]
      · rw [hsum]
        by_cases hL2 : c + (n + 1) = L
        · have hpos : 0 < n := by omega
          simp [hL2, hpos]
        · simp [hL2]

/-- Claim C3: after a completed receive of length `L`
(`0 < L ≤ PAGE_SIZE`) delivering `data`, the next `L` consuming `recv`
calls return `data[0], …, data[L-1]` in order; no resubmission happens
before the `L`-th call and the `L`-th call submits the new receive
request; and one further call with no new device completion returns
`Ok(None)`. -/
theorem drain_then_refill (L : Nat) (data : List Nat) (tok : Nat)
    (ntf : Bool) (hL : 0 < L) (hLp : L ≤ PAGE_SIZE)
    (hdata : data.length = PAGE_SIZE) :
    ((recvDrain ⟨Except.ok tok, ntf⟩ L (postCompletionState L data)).1
      = (List.range L).map (fun i => Outcome.ok (some (data.getD i 0))))
  ∧ (∀ k, k < L →
      (recvDrain ⟨Except.ok tok, ntf⟩ k
          (postCompletionState L data)).2.receive_token = none)
  ∧ ((recvDrain ⟨Except.ok tok, ntf⟩ L
        (postCompletionState L data)).2.receive_token = some tok)
  ∧ ((recv noCompletion ⟨Except.ok tok, ntf⟩ true
        (recvDrain ⟨Except.ok tok, ntf⟩ L
          (postCompletionState L data)).2).1 = Outcome.ok none) := by
  have hfull := recvDrain_aux L data tok ntf L 0 (by omega)
  have hcond : 0 + L = L ∧ 0 < L := ⟨by omega, hL⟩
  simp only [postCompletionState]
  refine ⟨?_, ?_, ?_, ?_⟩
  · rw [hfull]
    simp
  · intro k hk
    have hk' := recvDrain_aux L data tok ntf k 0 (by omega)
    rw [hk']
    have hckL : ¬(k = L ∧ 0 < k) := by omega
    simp [hckL, midDrainState]
  · rw [hfull]
    simp [hcond, midDrainState]
  · rw [hfull]
    simp [hcond, recv, finish_receive, noCompletion, midDrainState]

/-- Witness for C3 at a concrete input. -/
theorem drain_then_refill_witness :
    ((recvDrain ⟨Except.ok 3, false⟩ 2
        (postCompletionState 2 (List.replicate PAGE_SIZE 5))).2).receive_token
      = some 3 :=
  (drain_then_refill 2 (List.replicate PAGE_SIZE 5) 3 false
    (by decide) (by decide) (by simp)).2.2.1

end VirtioConsole
